import Mathlib

/-!
Verification development for the `ccdir` snapshot/compare tool.

The embedding follows `python3/ccdir.py` (the variant that carries the full
behavior: symlink handling and the combined include/exclude pass); where the
older `python3/dirchecksum.py` variant differs, the difference is noted in a
comment.  Pure data is modelled directly:

* byte strings are `List Nat` (each entry a byte value),
* paths are `String`,
* the filesystem facts an operation inspects (`os.path.lexists`, `isdir`,
  `islink`, `readlink`, content) are packaged per file in `FileView`,
* a source tree is the inductive `FsTree`, and the tree populated by
  `create_store` is a list of (relative path, stored entry) pairs,
* the MD5 digest from Python's `hashlib` is external to this repository and
  is modelled as an explicit function parameter `md5 : List Nat → List Nat`
  (`_get_file_md5` streams 4096-byte chunks into the hash, which digests the
  same bytes as hashing the whole content at once),
* fallible operations return `Except` / `Option`; the distinct Python
  exception classes raised by `cmpfile` are the constructors of `CmpErr`.

Recursive definitions that Python writes as loops are given structurally
decreasing fuel (always sufficient, see the comments at each use) so that
every definition evaluates inside the kernel.
-/

/-- Character membership in an fnmatch bracket class: `a-b` between two
characters is a code-point range, everything else is a literal member
(Python inserts the class body into a regex character class). -/
def charInClass : List Char → Char → Bool
  | a :: '-' :: b :: rest, c =>
      (a.toNat ≤ c.toNat && c.toNat ≤ b.toNat) || charInClass rest c
  | a :: rest, c => (a == c) || charInClass rest c
  | [], _ => false

/-- Split a bracket-class body at the first closing bracket, returning the
class content and the remaining pattern; `none` when the bracket is never
closed (Python then treats the opening bracket as a literal). -/
def splitClass : List Char → Option (List Char × List Char)
  | [] => none
  | ']' :: rest => some ([], rest)
  | c :: rest =>
      match splitClass rest with
      | none => none
      | some (cls, r) => some (c :: cls, r)

/-- Parse a bracket-class body after the opening bracket.  A closing bracket
in first position is a literal member of the class, as in Python's
`fnmatch.translate`. -/
def parseClassBody (ps : List Char) : Option (List Char × List Char) :=
  match ps with
  | ']' :: rest =>
      match splitClass rest with
      | none => none
      | some (cls, r) => some (']' :: cls, r)
  | _ => splitClass ps

/-- Parse a full fnmatch bracket class (an optional leading `!` negates it),
returning (negated, class content, rest of the pattern). -/
def parseClass (ps : List Char) : Option (Bool × List Char × List Char) :=
  match ps with
  | '!' :: ps1 => (parseClassBody ps1).map (fun p => (true, p.1, p.2))
  | _ => (parseClassBody ps).map (fun p => (false, p.1, p.2))

/-- Glob matching as in Python's `fnmatch.fnmatchcase` (`os.path.normcase` is
the identity on POSIX): `*` matches any run of characters including path
separators, `?` any single character, bracket classes as parsed above, and
every other character matches itself.  The whole string must match the whole
pattern.  Fuel: every step consumes at least one pattern or string character,
so `pattern.length + string.length + 1` steps always suffice. -/
def globFuel : Nat → List Char → List Char → Bool
  | 0, _, _ => false
  | fuel + 1, p, s =>
    match p, s with
    | [], [] => true
    | [], _ :: _ => false
    | '*' :: ps, s =>
        globFuel fuel ps s ||
          (match s with
           | [] => false
           | _ :: s2 => globFuel fuel ('*' :: ps) s2)
    | '?' :: ps, _ :: s2 => globFuel fuel ps s2
    | '?' :: _, [] => false
    | '[' :: ps, s =>
        (match parseClass ps with
         | some (neg, cls, rest) =>
             (match s with
              | [] => false
              | c :: s2 => (charInClass cls c != neg) && globFuel fuel rest s2)
         | none =>
             (match s with
              | [] => false
              | c :: s2 => ('[' == c) && globFuel fuel ps s2))
    | c :: ps, c2 :: s2 => (c == c2) && globFuel fuel ps s2
    | _ :: _, [] => false

/-- Python `fnmatch.fnmatch(s, pat)` on a POSIX system. -/
def fnmatch (s pat : String) : Bool :=
  globFuel (pat.data.length + s.data.length + 1) pat.data s.data

/-- Source `_in_patterns(s, patterns)`: true iff `s` matches at least one
pattern in the list (the source loop returns `True` on the first match and
`False` after exhausting the list). -/
def inPatterns (s : String) (patterns : List String) : Bool :=
  patterns.any (fun pat => fnmatch s pat)

/-- CPython semantics of `for x in lst: ... lst.remove(x)` over a list of
distinct names: the loop keeps an index that advances by one each iteration,
while `remove` deletes the first occurrence of the value from the same list,
shifting later elements left (so the element after a removed one is skipped).
Fuel: the index grows by one per step and the length never grows, so the
initial length bounds the number of iterations. -/
def pyRemoveLoopFuel (cond : String → Bool) : Nat → List String → Nat → List String
  | 0, lst, _ => lst
  | fuel + 1, lst, i =>
    if h : i < lst.length then
      if cond (lst.get ⟨i, h⟩) then
        pyRemoveLoopFuel cond fuel (lst.erase (lst.get ⟨i, h⟩)) (i + 1)
      else pyRemoveLoopFuel cond fuel lst (i + 1)
    else lst

/-- The full remove-while-iterating loop, started at index 0 with sufficient
fuel. -/
def pyRemoveLoop (cond : String → Bool) (lst : List String) : List String :=
  pyRemoveLoopFuel cond lst.length lst 0

/-- Relative-path join, `os.path.join(dirpath, n)` for the relative
components produced by the walk (`dirpath` is `""` at the source root). -/
def joinRel (dirpath n : String) : String :=
  if dirpath = "" then n else dirpath ++ "/" ++ n

/-- The filter condition applied to each entry name at one traversal level of
`create_store` (ccdir.py lines 160–168): the entry is removed when its
relative path matches an excluding pattern or matches no including pattern.
dirchecksum.py runs the exclude pass and the include pass as two separate
remove-loops; ccdir.py combines them in one condition. -/
def levelCond (inc exc : List String) (dirpath : String) (n : String) : Bool :=
  inPatterns (joinRel dirpath n) exc || !(inPatterns (joinRel dirpath n) inc)

/-- One level of `create_store` filtering: the remove-while-iterating loop
with the combined include/exclude condition. -/
def ccdirFilter (inc exc : List String) (dirpath : String) (names : List String) :
    List String :=
  pyRemoveLoop (levelCond inc exc dirpath) names

/-- Digest size of MD5 (the `digest_size` of `hashlib.md5`). -/
def digestSize : Nat := 16

/-- Threshold `_minsz = struct.calcsize(_fmt)` for `_fmt = ">Q16s"`: the
record length and the small/large boundary. -/
def minsz : Nat := 8 + digestSize

/-- Big-endian base-256 digits of `n`, `k` bytes wide (the `>Q` field of the
record format with `k = 8`). -/
def natToBeBytes : Nat → Nat → List Nat
  | 0, _ => []
  | k + 1, n => natToBeBytes k (n / 256) ++ [n % 256]

/-- Read big-endian bytes back into a number. -/
def beToNat (bs : List Nat) : Nat :=
  bs.foldl (fun a b => a * 256 + b) 0

/-- The `16s` field of `struct.pack`: a shorter input is padded with zero
bytes, a longer one truncated (never an error). -/
def pad16 (digest : List Nat) : List Nat :=
  digest.take digestSize ++ List.replicate (digestSize - digest.length) 0

/-- Encoding `struct.pack(">Q16s", size, digest)`: 8 big-endian size bytes followed by
the 16 digest bytes; `struct.error` (here `none`) exactly when the size does
not fit an unsigned 64-bit field. -/
def structPack (size : Nat) (digest : List Nat) : Option (List Nat) :=
  if size < 2 ^ 64 then some (natToBeBytes 8 size ++ pad16 digest) else none

/-- Decoding `struct.unpack(">Q16s", bs)`: `struct.error` (here `none`) exactly when
the buffer length differs from `struct.calcsize(">Q16s") = 24`; otherwise the
decoded size and the raw digest bytes. -/
def structUnpack (bs : List Nat) : Option (Nat × List Nat) :=
  if bs.length = minsz then some (beToNat (bs.take 8), bs.drop 8) else none

/-- The record payload written by the builder (the `some` case of
`structPack`; every on-disk file size satisfies `size < 2 ^ 64`, the `>Q`
field's range). -/
def packBytes (size : Nat) (digest : List Nat) : List Nat :=
  natToBeBytes 8 size ++ pad16 digest

/-- The facts `cmpfile` inspects about one path: `os.path.lexists`,
`os.path.isdir` (which follows symlinks), `os.path.islink`, the
`os.readlink` target (meaningful when `islink`), and the byte content
(meaningful for a regular file, whose `lstat` size is its length). -/
structure FileView where
  lexists : Bool
  isdir : Bool
  islink : Bool
  target : String
  content : List Nat
deriving DecidableEq

/-- The exceptions `cmpfile` can raise: the three `ArgumentError` cases and
the `struct.error` escaping from `struct.unpack`. -/
inductive CmpErr where
  | srcNotExist
  | srcIsDir
  | dstOutside
  | structError
deriving DecidableEq

/-- Whether the exception is of Python class `ArgumentError` (the
invalid-argument kind); `struct.error` is not. -/
def CmpErr.isInvalidArgument : CmpErr → Bool
  | .structError => false
  | _ => true

instance : DecidableEq (Except CmpErr Bool)
  | .error a, .error b =>
      if h : a = b then .isTrue (congrArg Except.error h)
      else .isFalse (fun hc => h (Except.error.inj hc))
  | .error _, .ok _ => .isFalse (fun hc => Except.noConfusion hc)
  | .ok _, .error _ => .isFalse (fun hc => Except.noConfusion hc)
  | .ok a, .ok b =>
      if h : a = b then .isTrue (congrArg Except.ok h)
      else .isFalse (fun hc => h (Except.ok.inj hc))

/-- Python `str.startswith`. -/
def startswith (s pre : String) : Bool :=
  pre.data.isPrefixOf s.data

/-- Comparator `Store.cmpfile(srcfile, dstfile)` from ccdir.py lines 105–139.  `dstfile`
here is the already canonicalized stored path (the source first applies
`os.path.abspath`; dirchecksum.py applies `os.path.realpath`), and `src`,
`dst` are the filesystem views of the live file and of that resolved path.
dirchecksum.py's variant lacks the symlink branch and uses `os.path.exists`
for the source check; the spec's comparator is the ccdir.py behavior. -/
def cmpfile (md5 : List Nat → List Nat) (mount_point : String) (src : FileView)
    (dstfile : String) (dst : FileView) : Except CmpErr Bool :=
  if !src.lexists then .error .srcNotExist
  else if src.isdir then .error .srcIsDir
  else if !(startswith dstfile (mount_point ++ "/")) then .error .dstOutside
  else if !dst.lexists || dst.isdir then .ok false
  else if src.islink then
    if !dst.islink then .ok false
    else if src.target ≠ dst.target then .ok false
    else .ok true
  else if dst.islink then .ok false
  else if dst.content.length < minsz then
    if dst.content ≠ src.content then .ok false else .ok true
  else
    match structUnpack dst.content with
    | none => .error .structError
    | some (sz, dg) =>
        if sz ≠ src.content.length then .ok false
        else if dg ≠ md5 src.content then .ok false
        else .ok true

/-- A node of the source tree: regular file (content and lstat metadata),
symlink (target and metadata), or directory with named children in listing
order.  Symlinks whose target is a directory are not modelled: `os.walk`
classifies them via `isdir` into `dirnames` but never descends into them. -/
inductive FsTree where
  | file (content : List Nat) (mode uid gid : Nat)
  | symlink (target : String) (mode uid gid : Nat)
  | dir (mode uid gid : Nat) (children : List (String × FsTree))

/-- Whether `os.walk` lists this entry in `dirnames`. -/
def FsTree.isDirNode : FsTree → Bool
  | .dir .. => true
  | _ => false

mutual

/-- Node count of a tree, the fuel measure for the walk. -/
def FsTree.size : FsTree → Nat
  | .file .. => 1
  | .symlink .. => 1
  | .dir _ _ _ cs => 1 + sizeChildren cs

/-- Node count of a listing. -/
def sizeChildren : List (String × FsTree) → Nat
  | [] => 0
  | (_, t) :: rest => t.size + sizeChildren rest

end

/-- A mirrored entry written under the destination root by `create_store`:
a directory (mkdir + chmod + chown), a symlink (os.symlink + lchown — no
mode), a verbatim small copy (shutil.copy2 + chown), or a record placeholder
(the packed bytes, fchmod + fchown + copystat). -/
inductive Stored where
  | dirE (mode uid gid : Nat)
  | symlinkE (target : String) (uid gid : Nat)
  | smallE (content : List Nat) (mode uid gid : Nat)
  | recordE (bytes : List Nat) (mode uid gid : Nat)
deriving DecidableEq

/-- The per-file body of `create_store` (ccdir.py lines 178–198): a symlink
is recreated with the identical target and its owner copied (no mode, no
content); a regular file below the threshold is copied verbatim; a regular
file at or above the threshold becomes the packed (size, digest) record.
The dir case is unreachable from the walk's `filenames` list. -/
def storedOf (md5 : List Nat → List Nat) : FsTree → Stored
  | .symlink target _ uid gid => .symlinkE target uid gid
  | .file content mode uid gid =>
      if content.length < minsz then .smallE content mode uid gid
      else .recordE (packBytes content.length (md5 content)) mode uid gid
  | .dir mode uid gid _ => .dirE mode uid gid

/-- The names `os.walk` reports in `dirnames` for this listing. -/
def dirNamesOf (children : List (String × FsTree)) : List String :=
  (children.filter (fun c => c.2.isDirNode)).map Prod.fst

/-- The names `os.walk` reports in `filenames` for this listing. -/
def fileNamesOf (children : List (String × FsTree)) : List String :=
  (children.filter (fun c => !c.2.isDirNode)).map Prod.fst

/-- The walk loop of `create_store` (ccdir.py lines 156–198) at one yielded
directory: filter `dirnames` and `filenames` in place with the combined
condition, write each surviving file with `storedOf`, and recurse into each
surviving directory (for which `os.walk` later yields the mkdir).  Fuel:
descending into a child directory drops `sizeChildren` by at least one, so
`sizeChildren children + 1` levels always suffice.  The per-child step of
the walk is `dirStep`: a surviving directory child contributes its mkdir
entry and the recursive walk of its listing, everything else contributes
nothing here (files are handled by the `filenames` loop). -/
def dirStep (dirpath : String) (survD : List String)
    (recur : String → List (String × FsTree) → List (String × Stored))
    (c : String × FsTree) (acc : List (String × Stored)) :
    List (String × Stored) :=
  match c with
  | (n, FsTree.dir m u g cs) =>
      (if survD.contains n then
        (joinRel dirpath n, Stored.dirE m u g) :: recur (joinRel dirpath n) cs
       else []) ++ acc
  | _ => acc

def buildWalkFuel (md5 : List Nat → List Nat) (inc exc : List String) :
    Nat → String → List (String × FsTree) → List (String × Stored)
  | 0, _, _ => []
  | fuel + 1, dirpath, children =>
      let survD := ccdirFilter inc exc dirpath (dirNamesOf children)
      let survF := ccdirFilter inc exc dirpath (fileNamesOf children)
      let fileEntries := survF.filterMap (fun n =>
        (children.lookup n).map (fun t => (joinRel dirpath n, storedOf md5 t)))
      fileEntries ++ children.foldr
        (dirStep dirpath survD (fun d2 cs2 => buildWalkFuel md5 inc exc fuel d2 cs2)) []

/-- The walk with sufficient fuel. -/
def buildWalk (md5 : List Nat → List Nat) (inc exc : List String)
    (dirpath : String) (children : List (String × FsTree)) :
    List (String × Stored) :=
  buildWalkFuel md5 inc exc (sizeChildren children + 1) dirpath children

/-- Builder `create_store(srcdir, ...)` restricted to the tree it populates: the
source root's children mirrored under the destination root (the squashfs
packaging of that tree is the backend's concern).  ccdir.py defaults are
`including_patterns=["*"]`, `excluding_patterns=[]`. -/
def create_store (md5 : List Nat → List Nat) (inc exc : List String)
    (rootChildren : List (String × FsTree)) : List (String × Stored) :=
  buildWalk md5 inc exc "" rootChildren

/-- A concrete stand-in digest used to evaluate the model on closed inputs
(16 bytes derived from the content; the development never relies on any
property of the real MD5 beyond its 16-byte output). -/
def sampleDigest (c : List Nat) : List Nat :=
  List.replicate digestSize ((c.length + c.foldl (fun a b => a + b) 0) % 256)

/-- The source tree of the spec's traversal-pruning scenario:
`keep/file.txt` and `skip/secret/data.bin`. -/
def keepSkipTree : List (String × FsTree) :=
  [("keep", FsTree.dir 0 0 0 [("file.txt", FsTree.file [104, 105] 0 0 0)]),
   ("skip", FsTree.dir 0 0 0
     [("secret", FsTree.dir 0 0 0 [("data.bin", FsTree.file [1, 2, 3] 0 0 0)])])]

/-- A big-endian field is as many bytes long as its width. -/
theorem natToBeBytes_length (k n : Nat) : (natToBeBytes k n).length = k := by
  induction k generalizing n with
  | zero => rfl
  | succ k ih => simp [natToBeBytes, ih]

/-- Appending one byte shifts the accumulated value by one base-256 digit. -/
theorem beToNat_append_singleton (l : List Nat) (b : Nat) :
    beToNat (l ++ [b]) = beToNat l * 256 + b := by
  simp [beToNat, List.foldl_append]

/-- Reading back a big-endian field recovers the value modulo its range. -/
theorem beToNat_natToBeBytes (k n : Nat) :
    beToNat (natToBeBytes k n) = n % 256 ^ k := by
  induction k generalizing n with
  | zero => simp [natToBeBytes, beToNat, Nat.mod_one]
  | succ k ih =>
      rw [natToBeBytes, beToNat_append_singleton, ih]
      have h : (256 : Nat) ^ (k + 1) = 256 * 256 ^ k := by ring
      rw [h, Nat.mod_mul]
      ring

/-- The 16-byte digest field passes a 16-byte digest through unchanged. -/
theorem pad16_of_length_eq (digest : List Nat) (h : digest.length = 16) :
    pad16 digest = digest := by
  simp [pad16, digestSize, h, List.take_of_length_le]

/-- C1: a `compare` call whose stored path, already resolved to a canonical
absolute path, does not lie strictly inside the mounted root — the resolved
string does not extend `mount_point ++ "/"`, the check that also rejects a
sibling such as `/root-evil` for root `/root` — raises an invalid-argument
error (`ArgumentError`) instead of returning a boolean.  Which of the three
`ArgumentError` messages is raised depends on the source-file checks that
run first, but every exit on such a call is an `ArgumentError`. -/
theorem cmpfile_outside_root_raises (md5 : List Nat → List Nat) (root : String)
    (src : FileView) (dstfile : String) (dst : FileView)
    (h : startswith dstfile (root ++ "/") = false) :
    ∃ e : CmpErr, cmpfile md5 root src dstfile dst = Except.error e ∧
      e.isInvalidArgument = true := by
  cases h1 : src.lexists with
  | false => exact ⟨.srcNotExist, by simp [cmpfile, h1], rfl⟩
  | true =>
      cases h2 : src.isdir with
      | true => exact ⟨.srcIsDir, by simp [cmpfile, h1, h2], rfl⟩
      | false => exact ⟨.dstOutside, by simp [cmpfile, h1, h2, h], rfl⟩

/-- Witness for C1 at a concrete call: live file fine, stored path
`/etc/passwd` outside root `/mnt`. -/
theorem cmpfile_outside_root_raises_witness :
    ∃ e : CmpErr, cmpfile sampleDigest "/mnt" ⟨true, false, false, "", []⟩
        "/etc/passwd" ⟨true, false, false, "", []⟩ = Except.error e ∧
      e.isInvalidArgument = true :=
  cmpfile_outside_root_raises sampleDigest "/mnt" ⟨true, false, false, "", []⟩
    "/etc/passwd" ⟨true, false, false, "", []⟩ (by decide)

/-- C2: the builder's small/large branch (ccdir.py line 189, dirchecksum.py
line 169) compares the source file's size with strict less-than against the
threshold `minsz`: a strictly smaller file is copied verbatim (`smallE`,
content kept byte-for-byte), and a file of size greater than or equal to the
threshold — in particular exactly `minsz` — is stored as a packed record
(`recordE`), a different constructor, never a verbatim copy. -/
theorem storedOf_threshold (md5 : List Nat → List Nat) (c : List Nat) (m u g : Nat) :
    (c.length < minsz → storedOf md5 (.file c m u g) = .smallE c m u g) ∧
    (minsz ≤ c.length → storedOf md5 (.file c m u g) =
      .recordE (packBytes c.length (md5 c)) m u g) := by
  constructor
  · intro h; simp [storedOf, h]
  · intro h; simp [storedOf, Nat.not_lt.mpr h]

/-- Witness for C2 at a file of exactly threshold size (24 bytes): stored as
a record, not a copy. -/
theorem storedOf_threshold_witness :
    storedOf sampleDigest (.file (List.replicate 24 7) 0 0 0) =
      .recordE (packBytes (List.replicate 24 7).length
        (sampleDigest (List.replicate 24 7))) 0 0 0 :=
  (storedOf_threshold sampleDigest (List.replicate 24 7) 0 0 0).2 (by decide)

/-- C3: for every unsigned 64-bit size and 16-byte digest, packing produces
the 8 big-endian size bytes followed by the raw digest, and unpacking that
24-byte record returns the original pair; unpacking fails exactly when the
input length differs from the threshold `minsz = 24`. -/
theorem record_roundtrip :
    (∀ (size : Nat) (digest : List Nat), size < 2 ^ 64 → digest.length = 16 →
      structPack size digest = some (natToBeBytes 8 size ++ digest) ∧
      structUnpack (natToBeBytes 8 size ++ digest) = some (size, digest)) ∧
    (∀ bs : List Nat, structUnpack bs = none ↔ bs.length ≠ minsz) := by
  constructor
  · intro size digest hsz hlen
    have hbe : (natToBeBytes 8 size).length = 8 := natToBeBytes_length 8 size
    constructor
    · unfold structPack
      rw [if_pos hsz, pad16_of_length_eq digest hlen]
    · have hl : (natToBeBytes 8 size ++ digest).length = minsz := by
        simp [hbe, hlen, minsz, digestSize]
      have htake : (natToBeBytes 8 size ++ digest).take 8 = natToBeBytes 8 size := by
        rw [← hbe]; exact List.take_left _ _
      have hdrop : (natToBeBytes 8 size ++ digest).drop 8 = digest := by
        rw [← hbe]; exact List.drop_left _ _
      have hval : beToNat (natToBeBytes 8 size) = size := by
        rw [beToNat_natToBeBytes]
        have h256 : (256 : Nat) ^ 8 = 2 ^ 64 := by norm_num
        rw [h256]
        exact Nat.mod_eq_of_lt hsz
      simp [structUnpack, hl, htake, hdrop, hval]
  · intro bs
    by_cases h : bs.length = minsz <;> simp [structUnpack, h]

/-- Witness for C3 at size 1000000 and a concrete 16-byte digest. -/
theorem record_roundtrip_witness :
    structPack 1000000 (List.replicate 16 9) =
      some (natToBeBytes 8 1000000 ++ List.replicate 16 9) ∧
    structUnpack (natToBeBytes 8 1000000 ++ List.replicate 16 9) =
      some (1000000, List.replicate 16 9) :=
  record_roundtrip.1 1000000 (List.replicate 16 9) (by norm_num) (by simp)

/-- C8: once the precondition checks pass and the live file is a symlink,
`cmpfile` returns exactly the boolean "the stored entry exists, is not a
directory (through symlinks), is itself a symlink, and its target string is
identical to the live one" — so identical targets give `true` and differing
targets or a stored non-symlink give `false`; and a live non-symlink
compared against a stored symlink also returns `false`. -/
theorem cmpfile_symlink_cases (md5 : List Nat → List Nat) (root : String)
    (src : FileView) (dstfile : String) (dst : FileView)
    (h1 : src.lexists = true) (h2 : src.isdir = false)
    (h3 : startswith dstfile (root ++ "/") = true) :
    (src.islink = true →
      cmpfile md5 root src dstfile dst =
        Except.ok (dst.lexists && !dst.isdir && dst.islink &&
          (src.target == dst.target))) ∧
    (src.islink = false → dst.islink = true →
      cmpfile md5 root src dstfile dst = Except.ok false) := by
  constructor
  · intro h4
    cases h5 : dst.lexists <;> cases h6 : dst.isdir <;> cases h7 : dst.islink <;>
      by_cases h8 : src.target = dst.target <;>
        simp [cmpfile, h1, h2, h3, h4, h5, h6, h7, h8]
  · intro h4 h7
    cases h5 : dst.lexists <;> cases h6 : dst.isdir <;>
      simp [cmpfile, h1, h2, h3, h4, h5, h6, h7]

/-- Witness for C8: live symlink to `target-a` against stored symlink to
`target-a` compares `true`. -/
theorem cmpfile_symlink_cases_witness :
    cmpfile sampleDigest "/mnt" ⟨true, false, true, "target-a", []⟩ "/mnt/s"
      ⟨true, false, true, "target-a", []⟩ = Except.ok true := by
  have h := (cmpfile_symlink_cases sampleDigest "/mnt"
      ⟨true, false, true, "target-a", []⟩ "/mnt/s"
      ⟨true, false, true, "target-a", []⟩ rfl rfl (by decide)).1 rfl
  simpa using h

/-- C7 counterexample: a stored regular file of 25 bytes has on-disk size at
least the threshold, its path is inside the root and both files are regular,
yet `cmpfile` raises `struct.error` from `struct.unpack` instead of
returning the claimed boolean. -/
theorem cmpfile_record_oversize_cex :
    cmpfile sampleDigest "/m" ⟨true, false, false, "", [1, 2, 3]⟩ "/m/a"
      ⟨true, false, false, "", List.replicate 25 1⟩ =
      Except.error CmpErr.structError := by decide

/-- C7 amended: for a stored regular file whose content is a decodable
record — its on-disk size is exactly the threshold, the only size at or
above the threshold `struct.unpack` accepts — the compare of a live regular
file is `true` iff the decoded size equals the live file's size and the
decoded digest equals the live file's freshly computed digest; and on a size
mismatch the result is `false` for every digest function whatsoever, i.e.
without the live digest being computed. -/
theorem cmpfile_record_branch (md5 : List Nat → List Nat) (root : String)
    (src : FileView) (dstfile : String) (dst : FileView) (sz : Nat) (dg : List Nat)
    (h1 : src.lexists = true) (h2 : src.isdir = false) (h3 : src.islink = false)
    (h4 : startswith dstfile (root ++ "/") = true)
    (h5 : dst.lexists = true) (h6 : dst.isdir = false) (h7 : dst.islink = false)
    (hdec : structUnpack dst.content = some (sz, dg)) :
    (cmpfile md5 root src dstfile dst = Except.ok true ↔
      sz = src.content.length ∧ dg = md5 src.content) ∧
    (sz ≠ src.content.length → ∀ md5b : List Nat → List Nat,
      cmpfile md5b root src dstfile dst = Except.ok false) := by
  have hlen : dst.content.length = minsz := by
    by_contra hne
    simp [structUnpack, hne] at hdec
  have hnotlt : ¬ dst.content.length < minsz := by omega
  constructor
  · by_cases hsz : sz = src.content.length
    · by_cases hdg : dg = md5 src.content
      · simp [cmpfile, h1, h2, h3, h4, h5, h6, h7, hnotlt, hdec, hsz, hdg]
      · simp [cmpfile, h1, h2, h3, h4, h5, h6, h7, hnotlt, hdec, hsz, hdg]
    · simp [cmpfile, h1, h2, h3, h4, h5, h6, h7, hnotlt, hdec, hsz]
  · intro hsz md5b
    simp [cmpfile, h1, h2, h3, h4, h5, h6, h7, hnotlt, hdec, hsz]

/-- Witness for C7 amended: a live 3-byte file against its own packed
record compares `true`. -/
theorem cmpfile_record_branch_witness :
    cmpfile sampleDigest "/m" ⟨true, false, false, "", [1, 2, 3]⟩ "/m/a"
      ⟨true, false, false, "", packBytes 3 (sampleDigest [1, 2, 3])⟩ =
      Except.ok true :=
  ((cmpfile_record_branch sampleDigest "/m" ⟨true, false, false, "", [1, 2, 3]⟩
      "/m/a" ⟨true, false, false, "", packBytes 3 (sampleDigest [1, 2, 3])⟩
      3 (sampleDigest [1, 2, 3]) rfl rfl rfl (by decide) rfl rfl rfl
      (by decide)).1).mpr ⟨rfl, rfl⟩

/-- C4 counterexample: the claimed preconditions hold — the live file exists
and is not a directory, the stored path is inside the mounted root — and the
stored entry is a present regular file, yet `cmpfile` raises `struct.error`
(because the stored file is 25 bytes, above the record length), instead of
returning a boolean. -/
theorem cmpfile_no_raise_cex :
    cmpfile sampleDigest "/mnt" ⟨true, false, false, "", [0]⟩ "/mnt/f"
      ⟨true, false, false, "", List.replicate 25 0⟩ =
      Except.error CmpErr.structError := by decide

/-- C4 amended: under the claimed preconditions `cmpfile` returns a boolean
and never raises, provided additionally that the stored file's byte length
is at most the threshold (every file a builder-produced snapshot stores is a
verbatim copy shorter than the threshold or a record of exactly the
threshold length; a longer stored file makes `struct.unpack` raise); and the
in-particular part unconditionally: a missing stored path or a stored
directory yields `false`, whatever the stored content. -/
theorem cmpfile_no_raise (md5 : List Nat → List Nat) (root : String)
    (src : FileView) (dstfile : String) (dst : FileView)
    (h1 : src.lexists = true) (h2 : src.isdir = false)
    (h3 : startswith dstfile (root ++ "/") = true) :
    (dst.content.length ≤ minsz →
      ∃ b : Bool, cmpfile md5 root src dstfile dst = Except.ok b) ∧
    ((dst.lexists = false ∨ dst.isdir = true) →
      cmpfile md5 root src dstfile dst = Except.ok false) := by
  constructor
  · intro hlen
    cases h5 : dst.lexists with
    | false => exact ⟨false, by simp [cmpfile, h1, h2, h3, h5]⟩
    | true =>
      cases h6 : dst.isdir with
      | true => exact ⟨false, by simp [cmpfile, h1, h2, h3, h5, h6]⟩
      | false =>
        cases h4 : src.islink with
        | true =>
          cases h7 : dst.islink with
          | false => exact ⟨false, by simp [cmpfile, h1, h2, h3, h5, h6, h4, h7]⟩
          | true =>
            by_cases h8 : src.target = dst.target
            · exact ⟨true, by simp [cmpfile, h1, h2, h3, h5, h6, h4, h7, h8]⟩
            · exact ⟨false, by simp [cmpfile, h1, h2, h3, h5, h6, h4, h7, h8]⟩
        | false =>
          cases h7 : dst.islink with
          | true => exact ⟨false, by simp [cmpfile, h1, h2, h3, h5, h6, h4, h7]⟩
          | false =>
            by_cases hlt : dst.content.length < minsz
            · have hres : cmpfile md5 root src dstfile dst =
                  if dst.content ≠ src.content then Except.ok false
                  else Except.ok true := by
                simp [cmpfile, h1, h2, h3, h5, h6, h4, h7, hlt]
              by_cases h9 : dst.content = src.content
              · exact ⟨true, by rw [hres, if_neg (fun hne => hne h9)]⟩
              · exact ⟨false, by rw [hres, if_pos h9]⟩
            · have hl24 : dst.content.length = minsz := by omega
              have hdec : structUnpack dst.content =
                  some (beToNat (dst.content.take 8), dst.content.drop 8) := by
                simp [structUnpack, hl24]
              by_cases h10 : beToNat (dst.content.take 8) = src.content.length
              · by_cases h11 : dst.content.drop 8 = md5 src.content
                · exact ⟨true, by
                    simp [cmpfile, h1, h2, h3, h5, h6, h4, h7, hlt, hdec, h10, h11]⟩
                · exact ⟨false, by
                    simp [cmpfile, h1, h2, h3, h5, h6, h4, h7, hlt, hdec, h10, h11]⟩
              · exact ⟨false, by
                  simp [cmpfile, h1, h2, h3, h5, h6, h4, h7, hlt, hdec, h10]⟩
  · intro hor
    rcases hor with h5 | h6
    · simp [cmpfile, h1, h2, h3, h5]
    · simp [cmpfile, h1, h2, h3, h6]

/-- Witness for C4 amended: a missing stored path compares `false`. -/
theorem cmpfile_no_raise_witness :
    cmpfile sampleDigest "/mnt" ⟨true, false, false, "", [3]⟩ "/mnt/g"
      ⟨false, false, false, "", []⟩ = Except.ok false :=
  (cmpfile_no_raise sampleDigest "/mnt" ⟨true, false, false, "", [3]⟩ "/mnt/g"
      ⟨false, false, false, "", []⟩ rfl rfl (by decide)).2 (Or.inl rfl)

/-- An element on which the removal condition is false is never removed by
the remove-while-iterating loop: only elements equal to one whose condition
held are erased. -/
theorem pyRemoveLoopFuel_keep (cond : String → Bool) (fuel : Nat) :
    ∀ (lst : List String) (i : Nat) (n : String), n ∈ lst → cond n = false →
      n ∈ pyRemoveLoopFuel cond fuel lst i := by
  induction fuel with
  | zero =>
      intro lst i n hn _
      simpa [pyRemoveLoopFuel] using hn
  | succ fuel ih =>
      intro lst i n hn hc
      simp only [pyRemoveLoopFuel]
      split
      next h =>
        split
        next hcx =>
          refine ih _ _ _ ?_ hc
          have hne : n ≠ lst.get ⟨i, h⟩ := by
            intro he
            rw [← he, hc] at hcx
            exact Bool.noConfusion hcx
          exact (List.mem_erase_of_ne hne).mpr hn
        next => exact ih _ _ _ hn hc
      next => exact hn

/-- C5 counterexample: at one traversal level with include `*` and exclude
`*.x`, both entries match the exclude pattern, yet the second survives the
filter (removing the first inside the iteration skips over the second) —
so surviving is not equivalent to matching an include pattern and no
exclude pattern. -/
theorem filter_iff_cex :
    ccdirFilter ["*"] ["*.x"] "" ["a.x", "b.x"] = ["b.x"] ∧
    inPatterns "b.x" ["*.x"] = true := by decide

/-- C5 amended: an entry whose relative path matches at least one include
pattern and no exclude pattern always survives the per-level filter (its
removal condition is false and the loop only erases elements whose condition
held); the converse direction fails, because the in-place removal skips the
entry that immediately follows a removed one, which can leave an entry
matching an exclude pattern (or matching no include pattern) in the
surviving list. -/
theorem filter_keeps_included (inc exc : List String) (dirpath : String)
    (names : List String) (n : String) (hn : n ∈ names)
    (hinc : inPatterns (joinRel dirpath n) inc = true)
    (hexc : inPatterns (joinRel dirpath n) exc = false) :
    n ∈ ccdirFilter inc exc dirpath names := by
  have hc : levelCond inc exc dirpath n = false := by
    simp [levelCond, hinc, hexc]
  exact pyRemoveLoopFuel_keep _ _ _ _ _ hn hc

/-- Witness for C5 amended: an included, non-excluded entry survives. -/
theorem filter_keeps_included_witness :
    "f" ∈ ccdirFilter ["*"] ["z"] "" ["f"] :=
  filter_keeps_included ["*"] ["z"] "" ["f"] "f" (by decide) (by decide) (by decide)

/-- C6: a symlink entry that survives the per-level filter is mirrored as a
real symlink entry whose target string is identical to the source symlink's
target and whose owner (uid, gid) is copied; the `symlinkE` constructor
carries no mode (the builder runs `os.symlink` and `os.lchown`, no chmod),
the source mode `m` does not occur in the result, and the digest function
`md5` does not occur in it either — the builder neither hashes nor copies
the content behind the symlink. -/
theorem build_symlink_entry (md5 : List Nat → List Nat) (inc exc : List String)
    (dirpath : String) (children : List (String × FsTree)) (n target : String)
    (m u g : Nat)
    (hlook : children.lookup n = some (FsTree.symlink target m u g))
    (hsurv : n ∈ ccdirFilter inc exc dirpath (fileNamesOf children)) :
    (joinRel dirpath n, Stored.symlinkE target u g) ∈
      buildWalk md5 inc exc dirpath children := by
  simp only [buildWalk, buildWalkFuel]
  refine List.mem_append.mpr (Or.inl ?_)
  refine List.mem_filterMap.mpr ⟨n, hsurv, ?_⟩
  simp [hlook, storedOf]

/-- Witness for C6: a surviving symlink child is stored with its target and
owner. -/
theorem build_symlink_entry_witness :
    ("s", Stored.symlinkE "target-a" 1 2) ∈
      buildWalk sampleDigest ["*"] [] "" [("s", FsTree.symlink "target-a" 5 1 2)] :=
  build_symlink_entry sampleDigest ["*"] [] "" [("s", FsTree.symlink "target-a" 5 1 2)]
    "s" "target-a" 5 1 2 rfl (by decide)

/-- A list is a prefix of itself followed by anything. -/
theorem isPrefixOf_append_self {α : Type} [BEq α] [LawfulBEq α] (l t : List α) :
    l.isPrefixOf (l ++ t) = true := by
  induction l with
  | nil => simp [List.isPrefixOf]
  | cons a as ih => simp [List.isPrefixOf, ih]

/-- Cancelling a common leading run on both sides of a prefix test. -/
theorem isPrefixOf_cancel {α : Type} [BEq α] [LawfulBEq α] (a b c : List α) :
    (a ++ b).isPrefixOf (a ++ c) = b.isPrefixOf c := by
  induction a with
  | nil => rfl
  | cons x xs ih => simp [List.isPrefixOf, ih]

/-- A successful prefix test exhibits the suffix. -/
theorem eq_append_of_isPrefixOf {α : Type} [BEq α] [LawfulBEq α] :
    ∀ (l m : List α), l.isPrefixOf m = true → ∃ t, m = l ++ t
  | [], m, _ => ⟨m, rfl⟩
  | a :: as, [], h => by simp [List.isPrefixOf] at h
  | a :: as, b :: bs, h => by
      simp only [List.isPrefixOf, Bool.and_eq_true, beq_iff_eq] at h
      obtain ⟨t, ht⟩ := eq_append_of_isPrefixOf as bs h.2
      exact ⟨t, by simp [h.1, ht]⟩

/-- Prefix tests are transitive. -/
theorem isPrefixOf_trans {α : Type} [BEq α] [LawfulBEq α] {x y z : List α}
    (h1 : x.isPrefixOf y = true) (h2 : y.isPrefixOf z = true) :
    x.isPrefixOf z = true := by
  obtain ⟨s, rfl⟩ := eq_append_of_isPrefixOf x y h1
  obtain ⟨t, rfl⟩ := eq_append_of_isPrefixOf (x ++ s) z h2
  rw [List.append_assoc]
  exact isPrefixOf_append_self x (s ++ t)

/-- Two lists that pass the prefix test against a common list are comparable
with each other. -/
theorem isPrefixOf_total_of_common {α : Type} [BEq α] [LawfulBEq α] :
    ∀ (z x y : List α), x.isPrefixOf z = true → y.isPrefixOf z = true →
      x.isPrefixOf y = true ∨ y.isPrefixOf x = true
  | _, [], y, _, _ => Or.inl (by simp [List.isPrefixOf])
  | _, x, [], _, _ => Or.inr (by simp [List.isPrefixOf])
  | [], a :: as, _ :: _, h1, _ => by simp [List.isPrefixOf] at h1
  | c :: zs, a :: as, b :: bs, h1, h2 => by
      simp only [List.isPrefixOf, Bool.and_eq_true, beq_iff_eq] at h1 h2
      rcases isPrefixOf_total_of_common zs as bs h1.2 h2.2 with h | h
      · exact Or.inl (by simp [List.isPrefixOf, h1.1, h2.1, h])
      · exact Or.inr (by simp [List.isPrefixOf, h1.1, h2.1, h])

/-- Two separator-free runs each closed by a separator and comparable by the
prefix test are the same run (the separator pins down the boundary). -/
theorem slashfree_eq_of_isPrefixOf :
    ∀ (n m : List Char), '/' ∉ n → '/' ∉ m →
      (n ++ ['/']).isPrefixOf (m ++ ['/']) = true → n = m
  | [], [], _, _, _ => rfl
  | [], c :: ms, _, hm, h => by
      simp only [List.nil_append, List.isPrefixOf, Bool.and_eq_true, beq_iff_eq] at h
      exact absurd (h.1 ▸ List.mem_cons_self c ms) hm
  | a :: ns, [], hn, _, h => by
      simp only [List.cons_append, List.nil_append, List.isPrefixOf,
        Bool.and_eq_true, beq_iff_eq] at h
      exact absurd (h.1 ▸ List.mem_cons_self a ns) hn
  | a :: ns, b :: ms, hn, hm, h => by
      simp only [List.cons_append, List.isPrefixOf, Bool.and_eq_true,
        beq_iff_eq] at h
      have := slashfree_eq_of_isPrefixOf ns ms
        (fun hc => hn (List.mem_cons_of_mem a hc))
        (fun hc => hm (List.mem_cons_of_mem b hc)) h.2
      rw [h.1, this]

/-- The remove-while-iterating loop only ever drops elements. -/
theorem pyRemoveLoopFuel_subset (cond : String → Bool) :
    ∀ (fuel : Nat) (lst : List String) (i : Nat),
      pyRemoveLoopFuel cond fuel lst i ⊆ lst
  | 0, lst, i => fun _ h => by simpa [pyRemoveLoopFuel] using h
  | fuel + 1, lst, i => by
      intro x hx
      simp only [pyRemoveLoopFuel] at hx
      split at hx
      next h =>
        split at hx
        next =>
          exact List.erase_subset _ _ (pyRemoveLoopFuel_subset cond fuel _ _ hx)
        next => exact pyRemoveLoopFuel_subset cond fuel _ _ hx
      next => exact hx

theorem slash_data : ("/" : String).data = ['/'] := rfl

/-- A joined relative path is empty only when both parts are. -/
theorem joinRel_ne_empty (d n : String) (h : d ≠ "" ∨ n ≠ "") :
    joinRel d n ≠ "" := by
  by_cases hd : d = ""
  · subst hd
    rcases h with h | h
    · exact absurd rfl h
    · simpa [joinRel] using h
  · rw [joinRel, if_neg hd]
    intro h0
    have hdata := congrArg String.data h0
    rw [String.data_append, String.data_append, slash_data] at hdata
    simp at hdata

/-- A joined path starts with its directory part followed by the
separator. -/
theorem startswith_joinRel_self (d n : String) (hd : d ≠ "") :
    startswith (joinRel d n) (d ++ "/") = true := by
  rw [joinRel, if_neg hd]
  show (d ++ "/").data.isPrefixOf ((d ++ "/" ++ n)).data = true
  rw [String.data_append (d ++ "/") n]
  exact isPrefixOf_append_self _ _

/-- A path lying under a subdirectory of `d` also lies under `d`. -/
theorem startswith_of_under (d n p : String) (hd : d ≠ "")
    (h : startswith p (joinRel d n ++ "/") = true) :
    startswith p (d ++ "/") = true := by
  rw [startswith] at h ⊢
  refine isPrefixOf_trans ?_ h
  rw [joinRel, if_neg hd, String.append_assoc (d ++ "/") n "/",
    String.data_append (d ++ "/") (n ++ "/")]
  exact isPrefixOf_append_self _ _

/-- Testing one joined path against another joined path of the same
directory (closed by a separator) reduces to testing the two entry-level
parts. -/
theorem startswith_joinRel_cancel (d x y : String) :
    startswith (joinRel d x) (joinRel d y ++ "/") =
      (y ++ "/").data.isPrefixOf x.data := by
  by_cases hd : d = ""
  · subst hd
    simp [joinRel, startswith]
  · rw [joinRel, joinRel, if_neg hd, if_neg hd, startswith,
      String.append_assoc (d ++ "/") y "/", String.data_append (d ++ "/") (y ++ "/"),
      String.data_append (d ++ "/") x]
    exact isPrefixOf_cancel _ _ _

/-- The same cancellation when both joined paths are closed by a
separator. -/
theorem startswith_joinRel_slash_cancel (d x y : String) :
    (joinRel d y ++ "/").data.isPrefixOf ((joinRel d x ++ "/")).data =
      (y ++ "/").data.isPrefixOf ((x ++ "/")).data := by
  by_cases hd : d = ""
  · simp [joinRel, hd]
  · rw [joinRel, joinRel, if_neg hd, if_neg hd,
      String.append_assoc (d ++ "/") y "/", String.append_assoc (d ++ "/") x "/",
      String.data_append (d ++ "/") (y ++ "/"), String.data_append (d ++ "/") (x ++ "/")]
    exact isPrefixOf_cancel _ _ _

/-- A separator-free entry name has no other separator-free entry name
strictly under it: if `y ++ "/"` is a prefix of `x` then `x` contains a
separator. -/
theorem no_slash_not_under (x y : String) (hx : '/' ∉ x.data)
    (h : (y ++ "/").data.isPrefixOf x.data = true) : False := by
  obtain ⟨t, ht⟩ := eq_append_of_isPrefixOf _ _ h
  apply hx
  rw [ht, String.data_append, slash_data]
  simp

/-- The names in `dirnames` or `filenames` are names of the listing. -/
theorem namesOf_subset_names (children : List (String × FsTree)) (x : String)
    (h : x ∈ dirNamesOf children ∨ x ∈ fileNamesOf children) :
    x ∈ children.map Prod.fst := by
  rcases h with h | h <;>
  · rcases List.mem_map.mp h with ⟨c, hc, rfl⟩
    exact List.mem_map_of_mem _ (List.mem_of_mem_filter hc)

/-- Every entry the walk emits below a non-root directory path lies
strictly under that path (its key extends `d ++ "/"`). -/
theorem buildWalkFuel_under (md5 : List Nat → List Nat) (inc exc : List String) :
    ∀ (fuel : Nat) (d : String) (cs : List (String × FsTree)) (p : String) (e : Stored),
      d ≠ "" → (p, e) ∈ buildWalkFuel md5 inc exc fuel d cs →
      startswith p (d ++ "/") = true := by
  intro fuel
  induction fuel with
  | zero =>
      intro d cs p e _ hmem
      simp [buildWalkFuel] at hmem
  | succ fuel ih =>
      intro d cs p e hd hmem
      simp only [buildWalkFuel] at hmem
      rcases List.mem_append.mp hmem with hA | hB
      · rcases List.mem_filterMap.mp hA with ⟨n, _, hsome⟩
        rcases Option.map_eq_some'.mp hsome with ⟨t, _, hpe⟩
        have hp : p = joinRel d n := by
          injection hpe with h1 _
          exact h1.symm
        rw [hp]
        exact startswith_joinRel_self d n hd
      · clear hmem
        revert hB
        generalize ccdirFilter inc exc d (dirNamesOf cs) = S
        induction cs with
        | nil => intro hB; simp at hB
        | cons c rest ihc =>
            intro hB
            obtain ⟨n, t⟩ := c
            rw [List.foldr_cons] at hB
            cases t with
            | file content m u g => exact ihc (by simpa [dirStep] using hB)
            | symlink target m u g => exact ihc (by simpa [dirStep] using hB)
            | dir m u g cs2 =>
                rw [dirStep] at hB
                rcases List.mem_append.mp hB with h1 | h2
                · by_cases hSn : S.contains n
                  · rw [if_pos hSn] at h1
                    rcases List.mem_cons.mp h1 with h1 | h1
                    · cases h1
                      exact startswith_joinRel_self d n hd
                    · have hd2 : joinRel d n ≠ "" := joinRel_ne_empty d n (Or.inl hd)
                      exact startswith_of_under d n p hd (ih (joinRel d n) cs2 p e hd2 h1)
                  · rw [if_neg hSn] at h1
                    simp at h1
                · exact ihc h2

/-- C9 counterexample: the sibling directories `skip1` and `skip2` both
match an exclude pattern, but removing `skip1` during the iteration skips
over `skip2`, the walk descends into it, and its descendant `skip2/y` is
mirrored into the snapshot — a descendant of an excluded directory is
visited and mirrored. -/
theorem prune_excluded_cex :
    inPatterns "skip2" ["skip1", "skip2"] = true ∧
    ("skip2/y", Stored.smallE [2] 0 0 0) ∈
      create_store sampleDigest ["*"] ["skip1", "skip2"]
        [("skip1", FsTree.dir 0 0 0 [("x", FsTree.file [1] 0 0 0)]),
         ("skip2", FsTree.dir 0 0 0 [("y", FsTree.file [2] 0 0 0)])] := by decide

/-- Nothing the walk mirrors lies strictly under a directory name that the
filter removed from `dirnames` (or under any separator-free name absent
from the surviving `dirnames`): level entries sit at separator-free keys
beside it, and every subtree key extends its own surviving directory's key,
which the separator boundary distinguishes from the removed name. -/
theorem buildWalkFuel_pruned (md5 : List Nat → List Nat) (inc exc : List String) :
    ∀ (fuel : Nat) (dirpath : String) (children : List (String × FsTree))
      (n p : String) (e : Stored),
      (∀ x ∈ children.map Prod.fst, '/' ∉ x.data ∧ x ≠ "") →
      '/' ∉ n.data →
      (ccdirFilter inc exc dirpath (dirNamesOf children)).contains n = false →
      (p, e) ∈ buildWalkFuel md5 inc exc fuel dirpath children →
      startswith p (joinRel dirpath n ++ "/") = false := by
  intro fuel dirpath children n p e hns hn hrem hout
  cases hval : startswith p (joinRel dirpath n ++ "/") with
  | false => rfl
  | true =>
    exfalso
    cases fuel with
    | zero => simp [buildWalkFuel] at hout
    | succ fuel =>
      simp only [buildWalkFuel] at hout
      rcases List.mem_append.mp hout with hA | hB
      · rcases List.mem_filterMap.mp hA with ⟨x, hxsurv, hsome⟩
        rcases Option.map_eq_some'.mp hsome with ⟨t, _, hpe⟩
        cases hpe
        have hx_f : x ∈ fileNamesOf children :=
          pyRemoveLoopFuel_subset (levelCond inc exc dirpath) _ _ _ hxsurv
        have hx_slash : '/' ∉ x.data :=
          (hns x (namesOf_subset_names children x (Or.inr hx_f))).1
        rw [startswith_joinRel_cancel] at hval
        exact no_slash_not_under x n hx_slash hval
      · clear hout
        revert hns hrem hB
        generalize ccdirFilter inc exc dirpath (dirNamesOf children) = S
        induction children with
        | nil => intro _ _ hB; simp at hB
        | cons c rest ihc =>
            intro hns hrem hB
            obtain ⟨nc, tc⟩ := c
            have hns_rest : ∀ x ∈ rest.map Prod.fst, '/' ∉ x.data ∧ x ≠ "" :=
              fun x hx => hns x (List.mem_cons_of_mem _ hx)
            rw [List.foldr_cons] at hB
            cases tc with
            | file content m u g =>
                exact ihc hns_rest hrem (by simpa [dirStep] using hB)
            | symlink target m u g =>
                exact ihc hns_rest hrem (by simpa [dirStep] using hB)
            | dir m u g cs2 =>
                rw [dirStep] at hB
                rcases List.mem_append.mp hB with h1 | h2
                · have hnc := hns nc (List.mem_cons_self _ _)
                  by_cases hSn : S.contains nc
                  · rw [if_pos hSn] at h1
                    rcases List.mem_cons.mp h1 with h1 | h1
                    · cases h1
                      rw [startswith_joinRel_cancel] at hval
                      exact no_slash_not_under nc n hnc.1 hval
                    · have hd2 : joinRel dirpath nc ≠ "" :=
                        joinRel_ne_empty dirpath nc (Or.inr hnc.2)
                      have hu := buildWalkFuel_under md5 inc exc fuel
                        (joinRel dirpath nc) cs2 p e hd2 h1
                      simp only [startswith] at hval hu
                      rcases isPrefixOf_total_of_common p.data _ _ hval hu with
                        hcmp | hcmp
                      · rw [startswith_joinRel_slash_cancel,
                          String.data_append n "/", String.data_append nc "/",
                          slash_data] at hcmp
                        have heq : n = nc := String.ext
                          (slashfree_eq_of_isPrefixOf n.data nc.data hn hnc.1 hcmp)
                        rw [← heq, hrem] at hSn
                        exact Bool.noConfusion hSn
                      · rw [startswith_joinRel_slash_cancel,
                          String.data_append nc "/", String.data_append n "/",
                          slash_data] at hcmp
                        have heq : nc = n := String.ext
                          (slashfree_eq_of_isPrefixOf nc.data n.data hnc.1 hn hcmp)
                        rw [heq, hrem] at hSn
                        exact Bool.noConfusion hSn
                  · rw [if_neg hSn] at h1
                    simp at h1
                · exact ihc hns_rest hrem h2

/-- C9 amended: for the concrete scenario the claim holds — building with
exclude set `skip/*` yields a snapshot containing `keep/file.txt` and no
entry strictly under `skip/` (the `skip` directory itself is mirrored empty,
because `skip` does not match `skip/*`; the pruning happens one level down
at `skip/secret`).  The general pruning statement holds for directories the
filter actually removes: when a directory child's name is gone from the
surviving `dirnames` of its level (names being separator-free and
non-empty, as directory listings are), no entry is mirrored strictly under
it.  A directory that merely matches an exclude pattern can instead escape
removal when it immediately follows a removed sibling, and its descendants
are then visited and mirrored — see the counterexample. -/
theorem prune_scenario :
    (("keep/file.txt" ∈
        (create_store sampleDigest ["*"] ["skip/*"] keepSkipTree).map Prod.fst) ∧
      (∀ p ∈ (create_store sampleDigest ["*"] ["skip/*"] keepSkipTree).map Prod.fst,
        startswith p "skip/" = false)) ∧
    (∀ (md5 : List Nat → List Nat) (inc exc : List String) (dirpath : String)
      (children : List (String × FsTree)) (n : String) (m u g : Nat)
      (cs2 : List (String × FsTree)) (p : String) (e : Stored),
      (∀ x ∈ children.map Prod.fst, '/' ∉ x.data ∧ x ≠ "") →
      (n, FsTree.dir m u g cs2) ∈ children →
      (ccdirFilter inc exc dirpath (dirNamesOf children)).contains n = false →
      (p, e) ∈ buildWalk md5 inc exc dirpath children →
      startswith p (joinRel dirpath n ++ "/") = false) := by
  refine ⟨by decide, ?_⟩
  intro md5 inc exc dirpath children n m u g cs2 p e hns hmem hrem hout
  exact buildWalkFuel_pruned md5 inc exc _ dirpath children n p e hns
    (hns n (List.mem_map_of_mem Prod.fst hmem)).1 hrem hout

/-- Witness for C9 amended: with exclude pattern `skip`, the directory
`skip` is removed from `dirnames`, and the mirrored entry `keep` does not
lie under `skip/`. -/
theorem prune_scenario_witness :
    startswith "keep" (joinRel "" "skip" ++ "/") = false :=
  prune_scenario.2 sampleDigest ["*"] ["skip"] ""
    [("keep", FsTree.dir 0 0 0 []),
     ("skip", FsTree.dir 0 0 0 [("x", FsTree.file [1] 0 0 0)])]
    "skip" 0 0 0 [("x", FsTree.file [1] 0 0 0)] "keep" (Stored.dirE 0 0 0)
    (by decide)
    (List.mem_cons_of_mem _ (List.mem_cons_self _ _))
    (by decide) (by decide)

/-- C10 counterexample: with an explicitly empty include pattern list the
snapshot root is not empty — of two sibling files, both failing the filter
condition, the removal of the first skips the second, which is then
mirrored. -/
theorem empty_include_cex :
    create_store sampleDigest [] []
        [("a", FsTree.file [1] 0 0 0), ("b", FsTree.file [2] 0 0 0)] =
      [("b", Stored.smallE [2] 0 0 0)] := by decide

/-- C10 amended: matching any path against an empty pattern list returns
false, so with an explicitly empty include list every child fails the filter
condition; but because the in-place removal skips the entry after each
removed one, only a source root with at most one child of each kind is
guaranteed an empty snapshot (proved here for a single child; with several
children alternating entries can survive, see the counterexample). -/
theorem empty_include_matches_nothing :
    (∀ s : String, inPatterns s [] = false) ∧
    (∀ (md5 : List Nat → List Nat) (exc : List String) (dirpath n : String)
      (t : FsTree), buildWalk md5 [] exc dirpath [(n, t)] = []) := by
  constructor
  · intro s; rfl
  · intro md5 exc dirpath n t
    cases t <;>
      simp [buildWalk, buildWalkFuel, dirStep, sizeChildren, FsTree.size,
        ccdirFilter, pyRemoveLoop, pyRemoveLoopFuel, levelCond, inPatterns,
        dirNamesOf, fileNamesOf, FsTree.isDirNode, List.erase_cons]
